import Mathlib

/-!
# Verification of the vectorizer core (`vectorizer/app/vectordb/vectordb.py`)

Shallow embedding of the `VectorDB` class: content formatting, chunk
processing, batched bulk indexing (`index_regular_docs`), FAQ indexing
(`index_faq_docs`), collection lifecycle (`create_or_clear_collection`)
and search, together with theorems settling the specification claims.

External capabilities are abstracted as parameters, faithful to what the
code imports:
* the SentenceTransformer encoder (`generate_embedding`) becomes a
  parameter `embed : String → Except String (List ℚ)` — an exception
  raised by the encoder is an `Except.error`;
* `uuid.uuid4()` becomes a draw from an identifier stream
  `idGen : Nat → String` indexed by a counter in the world state
  (the spec treats uuid collisions as negligible, which corresponds to
  `Function.Injective idGen`);
* the SQLite table read becomes an explicit `TableData` argument
  (columns and rows, from which the code builds `dict(zip(columns, row))`);
* the Qdrant client becomes an explicit store state `QdrantState`
  mutated by the collection-lifecycle and upsert operations;
* `recursive_character_splitting` (imported from a module outside the
  core file) is a parameter `split : String → List String`.
-/

namespace VectorDB

/-- A Python value appearing in a source record field map. -/
inductive Value where
  | str (s : String)
  | int (n : Int)
  | bool (b : Bool)
  | none
deriving DecidableEq, Repr

/-- Python `str()` of a value, used by f-string interpolation. -/
def Value.toStr : Value → String
  | .str s => s
  | .int n => toString n
  | .bool b => if b then "True" else "False"
  | .none => "None"

/-- Python truthiness of a value (`if data["booked"]`). -/
def Value.truthy : Value → Bool
  | .str s => decide (s ≠ "")
  | .int n => decide (n ≠ 0)
  | .bool b => b
  | .none => false

/-- A source record / metadata map: a Python dict rendered as an
association list in insertion order, later entries overriding earlier
ones on lookup (matching `dict` literal construction). -/
abbrev Record := List (String × Value)

/-- Dict lookup: the value of the LAST entry with the given key (later
assignments in a Python dict literal override earlier ones). -/
def dlookup (d : Record) (k : String) : Option Value :=
  match d with
  | [] => Option.none
  | (k', v) :: rest =>
      match dlookup rest k with
      | Option.none => if k' = k then some v else Option.none
      | some v' => some v'

/-- Python subscript `data[k]`: the value, or a `KeyError` carrying the
missing key. -/
def getKey (data : Record) (k : String) : Except String Value :=
  match dlookup data k with
  | some v => Except.ok v
  | Option.none => Except.error k

/-- Python `str()` of a whole dict, the fallback branch of
`format_content` (`return str(data)`). The exact rendering is
irrelevant to the claims; only totality matters. -/
def recordStr (data : Record) : String :=
  "\x7b" ++ String.intercalate ", "
      (data.map (fun p => p.1 ++ ": " ++ p.2.toStr)) ++ "\x7d"

/-- Model of `VectorDB.format_content` (vectordb.py lines 56-93): renders a record
into canonical text by collection tag. Python `data[...]` raises
`KeyError` on a missing field, modelled by `Except.error key`; keys are
read in the source's evaluation order. -/
def format_content (data : Record) (collection_name : String) :
    Except String String :=
  if collection_name = "car_rentals_collection" then do
    let booked ← getKey data "booked"
    let booking_status := if booked.truthy then "booked" else "not booked"
    let name ← getKey data "name"
    let location ← getKey data "location"
    let price_tier ← getKey data "price_tier"
    let start_date ← getKey data "start_date"
    let end_date ← getKey data "end_date"
    Except.ok ("Car rental: " ++ name.toStr ++ ", located at: " ++
      location.toStr ++ ", price tier: " ++ price_tier.toStr ++
      ". Rental period starts on " ++ start_date.toStr ++
      " and ends on " ++ end_date.toStr ++
      ". Currently, the rental is: " ++ booking_status ++ ".")
  else if collection_name = "excursions_collection" then do
    let booked ← getKey data "booked"
    let booking_status := if booked.truthy then "booked" else "not booked"
    let name ← getKey data "name"
    let location ← getKey data "location"
    let details ← getKey data "details"
    let keywords ← getKey data "keywords"
    Except.ok ("Excursion: " ++ name.toStr ++ " at " ++ location.toStr ++
      ". Additional details: " ++ details.toStr ++
      ". Currently, the excursion is " ++ booking_status ++
      ". Keywords: " ++ keywords.toStr ++ ".")
  else if collection_name = "flights_collection" then do
    let flight_no ← getKey data "flight_no"
    let departure_airport ← getKey data "departure_airport"
    let arrival_airport ← getKey data "arrival_airport"
    let scheduled_departure ← getKey data "scheduled_departure"
    let scheduled_arrival ← getKey data "scheduled_arrival"
    let actual_departure ← getKey data "actual_departure"
    let actual_arrival ← getKey data "actual_arrival"
    let status ← getKey data "status"
    let aircraft_code ← getKey data "aircraft_code"
    Except.ok ("Flight " ++ flight_no.toStr ++ " from " ++
      departure_airport.toStr ++ " to " ++ arrival_airport.toStr ++
      " was scheduled to depart at " ++ scheduled_departure.toStr ++
      " and arrive at " ++ scheduled_arrival.toStr ++
      ". The actual departure was at " ++ actual_departure.toStr ++
      " and the actual arrival was at " ++ actual_arrival.toStr ++
      ". Currently, the flight status is \x27" ++ status.toStr ++
      "\x27 and it was operated with aircraft code " ++
      aircraft_code.toStr ++ ".")
  else if collection_name = "hotels_collection" then do
    let booked ← getKey data "booked"
    let booking_status := if booked.truthy then "booked" else "not booked"
    let name ← getKey data "name"
    let location ← getKey data "location"
    let price_tier ← getKey data "price_tier"
    let checkin_date ← getKey data "checkin_date"
    let checkout_date ← getKey data "checkout_date"
    Except.ok ("Hotel " ++ name.toStr ++ " located in " ++
      location.toStr ++ " is categorized as " ++ price_tier.toStr ++
      " tier. The check-in date is " ++ checkin_date.toStr ++
      " and the check-out date is " ++ checkout_date.toStr ++
      ". Currently, the booked status is: " ++ booking_status ++ ".")
  else if collection_name = "faq_collection" then do
    let page_content ← getKey data "page_content"
    Except.ok page_content.toStr
  else
    Except.ok (recordStr data)

/-! ## Qdrant store model -/

/-- The distance metric of a collection (`qdrant_client.models.Distance`).
The code only ever uses `COSINE`. -/
inductive Distance where
  | cosine
deriving DecidableEq, Repr

/-- Model of `qdrant_client.models.VectorParams`: collection configuration. -/
structure VectorParams where
  size : Nat
  distance : Distance
deriving DecidableEq, Repr

/-- Model of `qdrant_client.models.PointStruct`: one indexed unit. Vectors are
lists of rationals (the float values of the encoder, whose arithmetic
is never inspected by this core). -/
structure PointStruct where
  id : String
  vector : List ℚ
  payload : Record
deriving DecidableEq

/-- A named collection's server-side state. -/
structure Collection where
  cfg : VectorParams
  points : List PointStruct
deriving DecidableEq

/-- The Qdrant server state: named collections. -/
abbrev QdrantState := List (String × Collection)

/-- Model of `client.collection_exists(name)`. -/
def collection_exists (st : QdrantState) (name : String) : Bool :=
  st.any (fun c => c.1 = name)

/-- The collection registered under `name`, if any. -/
def getCollection (st : QdrantState) (name : String) : Option Collection :=
  (st.find? (fun c => c.1 = name)).map (fun c => c.2)

/-- Model of `client.delete_collection(name)`. -/
def delete_collection (st : QdrantState) (name : String) : QdrantState :=
  st.filter (fun c => ¬ c.1 = name)

/-- Model of `client.create_collection(name, vectors_config)`: registers a fresh
empty collection. -/
def create_collection (st : QdrantState) (name : String)
    (cfg : VectorParams) : QdrantState :=
  st ++ [(name, ⟨cfg, []⟩)]

/-- Qdrant upsert of a single point: overwrite the point with the same
id if present, otherwise insert. -/
def upsertOne (pts : List PointStruct) (p : PointStruct) :
    List PointStruct :=
  if pts.any (fun q => q.id = p.id) then
    pts.map (fun q => if q.id = p.id then p else q)
  else
    pts ++ [p]

/-- Qdrant upsert of a batch of points, in order. -/
def upsertMany (pts : List PointStruct) (ps : List PointStruct) :
    List PointStruct :=
  ps.foldl upsertOne pts

/-- Model of `client.upsert(collection_name, points)`: fails when the collection
does not exist, otherwise inserts-or-overwrites the points by id. -/
def upsert (st : QdrantState) (name : String) (ps : List PointStruct) :
    Except String QdrantState :=
  if collection_exists st name then
    Except.ok (st.map (fun c =>
      if c.1 = name then (c.1, ⟨c.2.cfg, upsertMany c.2.points ps⟩) else c))
  else
    Except.error ("Collection " ++ name ++ " not found")

/-! ## World state: store, uuid stream position, log -/

/-- One `logger` line. -/
inductive LogEntry where
  | info (msg : String)
  | warning (msg : String)
  | error (msg : String)
deriving DecidableEq

/-- The mutable world an indexing run threads: the Qdrant store, the
position in the uuid draw stream, and the log. -/
structure World where
  store : QdrantState
  nextId : Nat
  log : List LogEntry
deriving DecidableEq

/-- Model of `VectorDB.create_or_clear_collection` (vectordb.py lines 43-51):
deletes the collection if it exists, then creates it fresh with
`VectorParams(size=384, distance=Distance.COSINE)`. -/
def create_or_clear_collection (w : World) (collection_name : String) :
    World :=
  let st1 :=
    if collection_exists w.store collection_name then
      delete_collection w.store collection_name
    else
      w.store
  let log1 :=
    if collection_exists w.store collection_name then
      w.log ++ [LogEntry.info ("Collection " ++ collection_name ++
        " already exists. Recreating it.")]
    else
      w.log
  { w with
    store := create_collection st1 collection_name ⟨384, Distance.cosine⟩,
    log := log1 ++ [LogEntry.info ("Created collection: " ++
      collection_name)] }

/-! ## Chunk processing (`process_chunk`, vectordb.py lines 106-112) -/

/-- Model of `VectorDB.process_chunk`: embed the chunk (the awaited
`generate_embedding_async` call may raise, giving `Except.error`), draw
a fresh uuid, and build the point whose payload is the Python dict
literal `{"content": chunk, **metadata}` — content first, then the
metadata entries, which override on key collision. -/
def process_chunk (embed : String → Except String (List ℚ))
    (idGen : Nat → String) (chunk : String) (metadata : Record)
    (w : World) : Except String (PointStruct × World) := do
  let v ← embed chunk
  Except.ok
    (⟨idGen w.nextId, v, ("content", Value.str chunk) :: metadata⟩,
     { w with nextId := w.nextId + 1 })

/-- The batch loop of `index_regular_docs` (lines 164-175): await each
chunk's task, keep the point on success, log and skip on failure. -/
def processBatch (embed : String → Except String (List ℚ))
    (idGen : Nat → String) :
    List (String × Record) → World → List PointStruct × World
  | [], w => ([], w)
  | (chunk, meta) :: rest, w =>
      match process_chunk embed idGen chunk meta w with
      | Except.ok (pt, w1) =>
          let r := processBatch embed idGen rest w1
          (pt :: r.1, r.2)
      | Except.error e =>
          processBatch embed idGen rest
            { w with log := w.log ++
                [LogEntry.error ("Error processing chunk: " ++ e)] }

/-- Model of `paired` construction of `index_regular_docs` (lines 145-150): format
each record (a `KeyError` here is NOT caught and aborts the run), split
into chunks, keep non-empty chunks paired with the originating record. -/
def buildPaired (split : String → List String)
    (collection_name : String) :
    List Record → Except String (List (String × Record))
  | [] => Except.ok []
  | item :: rest => do
      let text ← format_content item collection_name
      let tail ← buildPaired split collection_name rest
      Except.ok
        ((((split text).filter (fun c => ¬ c = "")).map
            (fun c => (c, item))) ++ tail)

/-- Fixed-size batching (`range(0, len(paired), batch_size)` slicing /
`more_itertools.chunked`). -/
def chunksOf (n : Nat) (l : List α) : List (List α) :=
  match l with
  | [] => []
  | x :: xs =>
      if _h : n = 0 then []
      else (x :: xs).take n :: chunksOf n ((x :: xs).drop n)
termination_by l.length
decreasing_by
  simp only [List.length_drop, List.length_cons]
  omega

/-- The per-batch tail of `index_regular_docs` (lines 159-183): process
each batch, upsert its surviving points when non-empty (an upsert
failure is not caught and aborts the run), log, and accumulate the
running total. -/
def runBatches (embed : String → Except String (List ℚ))
    (idGen : Nat → String) (collection_name : String) :
    List (List (String × Record)) → World → Nat →
    Except String (World × Nat)
  | [], w, total => Except.ok (w, total)
  | b :: rest, w, total =>
      let r := processBatch embed idGen b w
      if r.1.isEmpty then
        runBatches embed idGen collection_name rest r.2 total
      else do
        let st ← upsert r.2.store collection_name r.1
        runBatches embed idGen collection_name rest
          { r.2 with
            store := st,
            log := r.2.log ++ [LogEntry.info ("Indexed " ++
              toString r.1.length ++ " documents into " ++
              collection_name)] }
          (total + r.1.length)

/-- The table read of `index_regular_docs` (lines 131-142): the rows and
column names fetched from SQLite, from which the code builds
`dict(zip(column_names, row))` per row. -/
structure TableData where
  columns : List String
  rows : List (List Value)

/-- Model of `dict(zip(column_names, row))` for every row. -/
def TableData.data (tbl : TableData) : List Record :=
  tbl.rows.map (fun r => tbl.columns.zip r)

/-- Model of `VectorDB.index_regular_docs` (vectordb.py lines 129-187): load rows,
return with a warning when the table is empty, build `(chunk, metadata)`
pairs, return with a warning when no valid chunks exist, then process in
batches of 100 and log the final total. -/
def index_regular_docs (embed : String → Except String (List ℚ))
    (idGen : Nat → String) (split : String → List String)
    (tbl : TableData) (table_name collection_name : String)
    (w : World) : Except String World :=
  if tbl.rows.isEmpty then
    Except.ok { w with log := w.log ++
      [LogEntry.warning ("No data found in table " ++ table_name)] }
  else do
    let paired ← buildPaired split collection_name tbl.data
    if paired.isEmpty then
      Except.ok { w with log := w.log ++
        [LogEntry.warning ("No valid chunks generated for " ++
          collection_name)] }
    else do
      let r ← runBatches embed idGen collection_name
        (chunksOf 100 paired) w 0
      Except.ok { r.1 with log := r.1.log ++
        [LogEntry.info ("Finished indexing. Total documents indexed into "
          ++ collection_name ++ ": " ++ toString r.2)] }

/-! ## FAQ indexing (`index_faq_docs`, vectordb.py lines 192-214) -/

/-- Model of `re.split(r"(?=\n##)", text)`: cut the character stream before every
occurrence of the marker `"\n##"`, keeping the marker with the segment
that follows it. `acc` holds the current segment reversed. -/
def splitBeforeHH : List Char → List Char → List (List Char)
  | acc, [] => [acc.reverse]
  | acc, '\n' :: rest =>
      if rest.take 2 = ['#', '#'] then
        acc.reverse :: splitBeforeHH ['\n'] rest
      else
        splitBeforeHH ('\n' :: acc) rest
  | acc, c :: rest => splitBeforeHH (c :: acc) rest

/-- String-level wrapper of `splitBeforeHH`. -/
def faqSplit (s : String) : List String :=
  (splitBeforeHH [] s.data).map (fun cs => String.mk cs)

/-- Python `str.strip()`: drop leading and trailing whitespace. -/
def pyStrip (s : String) : String :=
  String.mk
    (((s.data.dropWhile (fun c => c.isWhitespace)).reverse.dropWhile
      (fun c => c.isWhitespace)).reverse)

/-- The document list of `index_faq_docs` (line 199):
`[{"page_content": txt.strip()} for txt in split if txt.strip()]`,
here represented by the stripped page contents. -/
def faqDocs (faq_text : String) : List String :=
  ((faqSplit faq_text).map (fun t => pyStrip t)).filter
    (fun t => ¬ t = "")

/-- Model of `asyncio.gather` over the `process_chunk` tasks (line 203) WITHOUT
`return_exceptions`: the first exception propagates and aborts
`index_faq_docs`; only when every task succeeds is the point list
returned. -/
def gatherPoints (embed : String → Except String (List ℚ))
    (idGen : Nat → String) :
    List String → World → Except String (List PointStruct × World)
  | [], w => Except.ok ([], w)
  | d :: rest, w => do
      let r ← process_chunk embed idGen d [("type", Value.str "faq")] w
      let r2 ← gatherPoints embed idGen rest r.2
      Except.ok (r.1 :: r2.1, r2.2)

/-- The upsert loop of `index_faq_docs` (lines 206-209): upsert the
points in batches of 100, counting insertions. -/
def upsertBatches (collection_name : String) :
    List (List PointStruct) → QdrantState → Nat →
    Except String (QdrantState × Nat)
  | [], st, inserted => Except.ok (st, inserted)
  | b :: rest, st, inserted => do
      let st1 ← upsert st collection_name b
      upsertBatches collection_name rest st1 (inserted + b.length)

/-- Model of `VectorDB.index_faq_docs` (vectordb.py lines 192-214): split the
fetched markdown into sections, embed every section (`gather`, so one
failure aborts the run), then upsert in batches of 100 and log. The
already-fetched document text is the `faq_text` argument (the network
fetch is the `aiohttp` call, external to this model; its failure also
aborts the run before this point). -/
def index_faq_docs (embed : String → Except String (List ℚ))
    (idGen : Nat → String) (faq_text : String)
    (collection_name : String) (w : World) : Except String World := do
  let r ← gatherPoints embed idGen (faqDocs faq_text) w
  let r2 ← upsertBatches collection_name (chunksOf 100 r.1) r.2.store 0
  let w2 := { r.2 with store := r2.1 }
  if 0 < r2.2 then
    Except.ok { w2 with log := w2.log ++
      [LogEntry.info ("Indexed " ++ toString r2.2 ++
        " FAQ documents into " ++ collection_name ++ ".")] }
  else
    Except.ok { w2 with log := w2.log ++
      [LogEntry.warning
        "No FAQ documents were successfully embedded and indexed."] }

/-- Model of `VectorDB.create_embeddings_async` (vectordb.py lines 117-121): the
dispatcher between the two entry modes. -/
def create_embeddings_async (embed : String → Except String (List ℚ))
    (idGen : Nat → String) (split : String → List String)
    (tbl : TableData) (faq_text : String)
    (table_name collection_name : String) (w : World) :
    Except String World :=
  if table_name = "faq" then
    index_faq_docs embed idGen faq_text collection_name w
  else
    index_regular_docs embed idGen split tbl table_name collection_name w

/-! ## Search (`VectorDB.search`, vectordb.py lines 219-229) -/

/-- One search hit: the similarity score and, when requested, the
point's payload. -/
structure ScoredPoint where
  score : ℚ
  payload : Option Record
deriving DecidableEq

/-- Insert a point into a list kept in descending key order. -/
def insertDesc (key : PointStruct → ℚ) (p : PointStruct) :
    List PointStruct → List PointStruct
  | [] => [p]
  | q :: rest =>
      if key q < key p then p :: q :: rest else q :: insertDesc key p rest

/-- Sort points by descending key (best match first). -/
def sortDesc (key : PointStruct → ℚ) (l : List PointStruct) :
    List PointStruct :=
  l.foldr (insertDesc key) []

/-- The Qdrant server's `search` endpoint (the vector-store protocol of
the spec): rank the collection's points by descending similarity under
the store's scoring function `score`, return the best `limit` hits with
payloads when requested. It reads the store and returns it unchanged.
Fails when the collection does not exist. -/
def clientSearch (score : List ℚ → List ℚ → ℚ) (st : QdrantState)
    (collection_name : String) (query_vector : List ℚ) (limit : Nat)
    (with_payload : Bool) :
    Except String (List ScoredPoint) × QdrantState :=
  (match getCollection st collection_name with
   | Option.none =>
      Except.error ("Collection " ++ collection_name ++ " not found")
   | some c =>
      Except.ok
        (((sortDesc (fun p => score query_vector p.vector)
            c.points).take limit).map
          (fun p => ⟨score query_vector p.vector,
            if with_payload then some p.payload else Option.none⟩)),
   st)

/-- Model of `VectorDB.search`: embed the query locally (`generate_embedding`,
the pure `encode` parameter) then query Qdrant. The world is threaded
to state the frame property. -/
def search (score : List ℚ → List ℚ → ℚ) (encode : String → List ℚ)
    (collection_name query : String) (limit : Nat) (with_payload : Bool)
    (w : World) : Except String (List ScoredPoint) × World :=
  let query_vector := encode query
  let r := clientSearch score w.store collection_name query_vector
    limit with_payload
  (r.1, { w with store := r.2 })

/-! ## Characterization helpers

Executable descriptions of run results, used to state the theorems. -/

/-- The ids of a point list. -/
def pointIds (pts : List PointStruct) : List String :=
  pts.map (fun p => p.id)

/-- The points a run produces from `paired`, keeping exactly the chunks
whose embedding succeeds, with uuid draws starting at position `n`. -/
def mkPointsE (embed : String → Except String (List ℚ))
    (idGen : Nat → String) :
    List (String × Record) → Nat → List PointStruct
  | [], _ => []
  | (c, m) :: rest, n =>
      match embed c with
      | Except.ok v =>
          ⟨idGen n, v, ("content", Value.str c) :: m⟩ ::
            mkPointsE embed idGen rest (n + 1)
      | Except.error _ => mkPointsE embed idGen rest n

/-- How many chunks of `l` embed successfully. -/
def succCount (embed : String → Except String (List ℚ))
    (l : List (String × Record)) : Nat :=
  (l.filter (fun p => (embed p.1).isOk)).length

/-- The error log entries a batch run writes, one per failed chunk. -/
def errLogs (embed : String → Except String (List ℚ)) :
    List (String × Record) → List LogEntry
  | [] => []
  | (c, _) :: rest =>
      match embed c with
      | Except.ok _ => errLogs embed rest
      | Except.error e =>
          LogEntry.error ("Error processing chunk: " ++ e) ::
            errLogs embed rest

/-- Whether a log entry is an error entry. -/
def isErrEntry : LogEntry → Bool
  | LogEntry.error _ => true
  | _ => false

/-- The number of non-empty chunks a record contributes (its `k_i`);
zero when formatting fails (formatting failure aborts the run anyway). -/
def chunkCount (split : String → List String)
    (collection_name : String) (item : Record) : Nat :=
  match format_content item collection_name with
  | Except.ok t => ((split t).filter (fun c => ¬ c = "")).length
  | Except.error _ => 0

/-- The field names `format_content` reads for a given collection tag,
in source evaluation order; empty for unrecognized tags (whose branch
is the total `str(data)` fallback). -/
def requiredKeys (collection_name : String) : List String :=
  if collection_name = "car_rentals_collection" then
    ["booked", "name", "location", "price_tier", "start_date", "end_date"]
  else if collection_name = "excursions_collection" then
    ["booked", "name", "location", "details", "keywords"]
  else if collection_name = "flights_collection" then
    ["flight_no", "departure_airport", "arrival_airport",
     "scheduled_departure", "scheduled_arrival", "actual_departure",
     "actual_arrival", "status", "aircraft_code"]
  else if collection_name = "hotels_collection" then
    ["booked", "name", "location", "price_tier", "checkin_date",
     "checkout_date"]
  else if collection_name = "faq_collection" then
    ["page_content"]
  else
    []

/-- A concrete injective identifier stream used by the witnesses. -/
def idGenA (n : Nat) : String :=
  String.mk (List.replicate n 'a')

/-! ## Store lemmas -/

theorem idGenA_injective : Function.Injective idGenA := by
  intro a b h
  have h2 : (List.replicate a 'a').length = (List.replicate b 'a').length := by
    have := congrArg String.data h
    simp only [idGenA] at this
    exact congrArg List.length this
  simpa using h2

theorem getCollection_delete_self (st : QdrantState) (name : String) :
    getCollection (delete_collection st name) name = Option.none := by
  induction st with
  | nil => rfl
  | cons c rest ih =>
      by_cases h : c.1 = name
      · simpa [delete_collection, h] using ih
      · simpa [delete_collection, getCollection, List.find?, h] using ih

theorem getCollection_append_single (st : QdrantState) (name : String)
    (c : Collection) (h : getCollection st name = Option.none) :
    getCollection (st ++ [(name, c)]) name = some c := by
  induction st with
  | nil => simp [getCollection, List.find?]
  | cons e rest ih =>
      by_cases he : e.1 = name
      · simp [getCollection, List.find?, he] at h
      · have hrest : getCollection rest name = Option.none := by
          simpa [getCollection, List.find?, he] using h
        simpa [getCollection, List.find?, he] using ih hrest

theorem getCollection_create_fresh (st : QdrantState) (name : String)
    (cfg : VectorParams) (h : getCollection st name = Option.none) :
    getCollection (create_collection st name cfg) name = some ⟨cfg, []⟩ :=
  getCollection_append_single st name ⟨cfg, []⟩ h

theorem collection_exists_eq_isSome (st : QdrantState) (name : String) :
    collection_exists st name = (getCollection st name).isSome := by
  induction st with
  | nil => rfl
  | cons e rest ih =>
      by_cases he : e.1 = name
      · simp [collection_exists, getCollection, List.find?, he]
      · simpa [collection_exists, getCollection, List.find?, he] using ih

/-- After `create_or_clear_collection`, the named collection exists, is
empty, and carries the 384-dimensional cosine configuration — whatever
the prior state was. -/
theorem getCollection_create_or_clear (w : World) (name : String) :
    getCollection (create_or_clear_collection w name).store name =
      some ⟨⟨384, Distance.cosine⟩, []⟩ := by
  unfold create_or_clear_collection
  by_cases h : collection_exists w.store name = true
  · simp only [h, if_true]
    exact getCollection_create_fresh _ _ _
      (getCollection_delete_self w.store name)
  · simp only [h, if_false]
    have hn : getCollection w.store name = Option.none := by
      have h2 := collection_exists_eq_isSome w.store name
      cases hg : getCollection w.store name with
      | none => rfl
      | some c => rw [hg] at h2; simp [h2] at h
    exact getCollection_create_fresh _ _ _ hn

/-! ## Claim C2: idempotent collection lifecycle -/

/-- Claim **C2.** `create_or_clear_collection` is idempotent: for every prior
world — collection absent, present and empty, or present with upserted
points — the call leaves the named collection existing, empty, and
configured with 384-dimensional cosine vectors; and calling it, then
upserting points, then calling it again leaves the collection empty
both times. -/
theorem create_or_clear_collection_idempotent (w : World) (name : String)
    (ps : List PointStruct) (st1 : QdrantState) (nid : Nat)
    (lg : List LogEntry)
    (hup : upsert (create_or_clear_collection w name).store name ps =
      Except.ok st1) :
    getCollection (create_or_clear_collection w name).store name =
        some ⟨⟨384, Distance.cosine⟩, []⟩ ∧
    getCollection (create_or_clear_collection ⟨st1, nid, lg⟩ name).store
        name = some ⟨⟨384, Distance.cosine⟩, []⟩ :=
  ⟨getCollection_create_or_clear w name,
   getCollection_create_or_clear ⟨st1, nid, lg⟩ name⟩

/-- Witness for C2: a concrete run — create, upsert one point, create
again — on an initially empty store. -/
theorem create_or_clear_collection_idempotent_witness :
    upsert (create_or_clear_collection ⟨[], 0, []⟩ "c").store "c"
        [⟨"i", [1], []⟩] =
      Except.ok [("c", ⟨⟨384, Distance.cosine⟩, [⟨"i", [1], []⟩]⟩)] ∧
    (getCollection (create_or_clear_collection ⟨[], 0, []⟩ "c").store "c" =
        some ⟨⟨384, Distance.cosine⟩, []⟩ ∧
      getCollection (create_or_clear_collection
        ⟨[("c", ⟨⟨384, Distance.cosine⟩, [⟨"i", [1], []⟩]⟩)], 7, []⟩
        "c").store "c" = some ⟨⟨384, Distance.cosine⟩, []⟩) :=
  ⟨by rfl,
   create_or_clear_collection_idempotent ⟨[], 0, []⟩ "c" [⟨"i", [1], []⟩]
     [("c", ⟨⟨384, Distance.cosine⟩, [⟨"i", [1], []⟩]⟩)] 7 [] (by rfl)⟩

/-! ## Claim C7: search does not mutate the store -/

/-- Claim **C7.** `search` never mutates the vector store: the world after a
search call is the one before it, so every collection's existence,
configuration and points are unchanged; only the indexing operations
write to the store. -/
theorem search_never_mutates (score : List ℚ → List ℚ → ℚ)
    (encode : String → List ℚ) (collection_name query : String)
    (limit : Nat) (with_payload : Bool) (w : World) :
    (search score encode collection_name query limit with_payload w).2 =
        w ∧
    ∀ n : String,
      getCollection
        (search score encode collection_name query limit with_payload
          w).2.store n = getCollection w.store n :=
  ⟨rfl, fun _ => rfl⟩

/-! ## Claim C9: an empty table is not an error -/

/-- Claim **C9.** When the table holds no rows, `index_regular_docs` returns
normally with exactly an advisory warning appended to the log, without
raising and without touching the store: the resulting world keeps the
store (and uuid position) unchanged. -/
theorem index_regular_docs_empty_table
    (embed : String → Except String (List ℚ)) (idGen : Nat → String)
    (split : String → List String) (tbl : TableData)
    (table_name collection_name : String) (w : World)
    (h : tbl.rows = []) :
    index_regular_docs embed idGen split tbl table_name collection_name
        w =
      Except.ok { w with log := w.log ++
        [LogEntry.warning ("No data found in table " ++ table_name)] } :=
  by simp [index_regular_docs, h]

/-- Witness for C9: a concrete empty table. -/
theorem index_regular_docs_empty_table_witness :
    (⟨["a"], []⟩ : TableData).rows = [] ∧
    index_regular_docs (fun _ => Except.ok [1]) idGenA (fun t => [t])
        ⟨["a"], []⟩ "t" "c" ⟨[], 0, []⟩ =
      Except.ok ⟨[], 0,
        [LogEntry.warning ("No data found in table " ++ "t")]⟩ :=
  ⟨rfl,
   index_regular_docs_empty_table (fun _ => Except.ok [1]) idGenA
     (fun t => [t]) ⟨["a"], []⟩ "t" "c" ⟨[], 0, []⟩ rfl⟩

/-! ## Claim C10: payload construction in `process_chunk` -/

/-- Claim **C10.** `process_chunk` builds the payload as the dict literal
`{"content": chunk, **metadata}`, so the metadata wins on key
collision: when the record itself has a `"content"` field, the stored
payload's `"content"` entry is that field's value (the chunk text is
shadowed out of the dict); otherwise `payload["content"]` is exactly
the chunk text; every other key reads straight from the metadata. -/
theorem process_chunk_payload_content
    (embed : String → Except String (List ℚ)) (idGen : Nat → String)
    (chunk : String) (metadata : Record) (w w' : World)
    (pt : PointStruct)
    (h : process_chunk embed idGen chunk metadata w =
      Except.ok (pt, w')) :
    (∀ k, ¬ k = "content" →
      dlookup pt.payload k = dlookup metadata k) ∧
    (dlookup metadata "content" = Option.none →
      dlookup pt.payload "content" = some (Value.str chunk)) ∧
    (∀ v, dlookup metadata "content" = some v →
      dlookup pt.payload "content" = some v) := by
  have hp : pt.payload = ("content", Value.str chunk) :: metadata := by
    cases he : embed chunk with
    | error e => simp [process_chunk, he, bind, Except.bind] at h
    | ok v =>
        simp only [process_chunk, he, Except.ok.injEq,
          Prod.mk.injEq, bind, Except.bind] at h
        rw [← h.1]
  refine ⟨?_, ?_, ?_⟩
  · intro k hk
    rw [hp]
    cases hm : dlookup metadata k with
    | none =>
        simp only [dlookup, hm]
        rw [if_neg (fun hh => hk hh.symm)]
    | some v0 => simp only [dlookup, hm]
  · intro hm
    rw [hp]
    simp [dlookup, hm]
  · intro v hm
    rw [hp]
    simp [dlookup, hm]

/-- Witness for C10: a record whose field map itself contains a
`"content"` field shadowing the chunk text, plus the collision-free
reading on the other key. -/
theorem process_chunk_payload_content_witness :
    process_chunk (fun _ => Except.ok [1]) idGenA "chunktext"
        [("content", Value.str "orig"), ("x", Value.int 5)] ⟨[], 0, []⟩ =
      Except.ok
        (⟨idGenA 0, [1],
          [("content", Value.str "chunktext"),
           ("content", Value.str "orig"), ("x", Value.int 5)]⟩,
         ⟨[], 1, []⟩) ∧
    ((∀ k, ¬ k = "content" →
        dlookup [("content", Value.str "chunktext"),
          ("content", Value.str "orig"), ("x", Value.int 5)] k =
        dlookup [("content", Value.str "orig"), ("x", Value.int 5)] k) ∧
     (dlookup [("content", Value.str "orig"), ("x", Value.int 5)]
        "content" = Option.none →
      dlookup [("content", Value.str "chunktext"),
        ("content", Value.str "orig"), ("x", Value.int 5)] "content" =
        some (Value.str "chunktext")) ∧
     (∀ v, dlookup [("content", Value.str "orig"), ("x", Value.int 5)]
        "content" = some v →
      dlookup [("content", Value.str "chunktext"),
        ("content", Value.str "orig"), ("x", Value.int 5)] "content" =
        some v)) :=
  ⟨by rfl,
   process_chunk_payload_content (fun _ => Except.ok [1]) idGenA
     "chunktext" [("content", Value.str "orig"), ("x", Value.int 5)]
     ⟨[], 0, []⟩ ⟨[], 1, []⟩
     ⟨idGenA 0, [1],
      [("content", Value.str "chunktext"),
       ("content", Value.str "orig"), ("x", Value.int 5)]⟩
     (by rfl)⟩

/-! ## Claim C4: totality of `format_content` -/

/-- Counterexample to C4 as stated: on a record missing the fields its
template reads, `format_content` raises (`KeyError: 'booked'` on the
empty record with the recognized tag `car_rentals_collection`) instead
of returning a string. -/
theorem format_content_raises_on_missing_field :
    format_content [] "car_rentals_collection" =
        Except.error "booked" ∧
    ¬ ∃ s, format_content [] "car_rentals_collection" = Except.ok s := by
  refine ⟨rfl, ?_⟩
  intro hex
  obtain ⟨s, hs⟩ := hex
  have h0 : (Except.error "booked" : Except String String) =
      Except.ok s := hs
  exact Except.noConfusion h0

/-- Claim **C4 (amended).** `format_content` is pure and returns a string for
every unrecognized tag (the `str(data)` fallback) and, for each of the
five recognized tags, for every record that contains the fields the
tag's template reads; a record missing such a field makes the Python
subscript raise `KeyError`, so totality holds only under that
field-presence condition. -/
theorem format_content_total_amended (data : Record)
    (collection_name : String)
    (h : ∀ k ∈ requiredKeys collection_name, (dlookup data k).isSome) :
    ∃ s, format_content data collection_name = Except.ok s := by
  suffices hok : (format_content data collection_name).isOk = true by
    cases hv : format_content data collection_name with
    | ok s => exact ⟨s, rfl⟩
    | error e => rw [hv] at hok; simp [Except.isOk, Except.toBool] at hok
  by_cases h1 : collection_name = "car_rentals_collection"
  · subst h1
    obtain ⟨v1, hv1⟩ :=
      Option.isSome_iff_exists.mp (h "booked" (by decide))
    obtain ⟨v2, hv2⟩ :=
      Option.isSome_iff_exists.mp (h "name" (by decide))
    obtain ⟨v3, hv3⟩ :=
      Option.isSome_iff_exists.mp (h "location" (by decide))
    obtain ⟨v4, hv4⟩ :=
      Option.isSome_iff_exists.mp (h "price_tier" (by decide))
    obtain ⟨v5, hv5⟩ :=
      Option.isSome_iff_exists.mp (h "start_date" (by decide))
    obtain ⟨v6, hv6⟩ :=
      Option.isSome_iff_exists.mp (h "end_date" (by decide))
    simp [format_content, getKey, hv1, hv2, hv3, hv4, hv5, hv6,
      bind, Except.bind, Except.isOk, Except.toBool]
  by_cases h2 : collection_name = "excursions_collection"
  · subst h2
    obtain ⟨v1, hv1⟩ :=
      Option.isSome_iff_exists.mp (h "booked" (by decide))
    obtain ⟨v2, hv2⟩ :=
      Option.isSome_iff_exists.mp (h "name" (by decide))
    obtain ⟨v3, hv3⟩ :=
      Option.isSome_iff_exists.mp (h "location" (by decide))
    obtain ⟨v4, hv4⟩ :=
      Option.isSome_iff_exists.mp (h "details" (by decide))
    obtain ⟨v5, hv5⟩ :=
      Option.isSome_iff_exists.mp (h "keywords" (by decide))
    simp [format_content, getKey, hv1, hv2, hv3, hv4, hv5,
      bind, Except.bind, Except.isOk, Except.toBool]
  by_cases h3 : collection_name = "flights_collection"
  · subst h3
    obtain ⟨v1, hv1⟩ :=
      Option.isSome_iff_exists.mp (h "flight_no" (by decide))
    obtain ⟨v2, hv2⟩ :=
      Option.isSome_iff_exists.mp (h "departure_airport" (by decide))
    obtain ⟨v3, hv3⟩ :=
      Option.isSome_iff_exists.mp (h "arrival_airport" (by decide))
    obtain ⟨v4, hv4⟩ :=
      Option.isSome_iff_exists.mp (h "scheduled_departure" (by decide))
    obtain ⟨v5, hv5⟩ :=
      Option.isSome_iff_exists.mp (h "scheduled_arrival" (by decide))
    obtain ⟨v6, hv6⟩ :=
      Option.isSome_iff_exists.mp (h "actual_departure" (by decide))
    obtain ⟨v7, hv7⟩ :=
      Option.isSome_iff_exists.mp (h "actual_arrival" (by decide))
    obtain ⟨v8, hv8⟩ :=
      Option.isSome_iff_exists.mp (h "status" (by decide))
    obtain ⟨v9, hv9⟩ :=
      Option.isSome_iff_exists.mp (h "aircraft_code" (by decide))
    simp [format_content, getKey, hv1, hv2, hv3, hv4, hv5, hv6, hv7,
      hv8, hv9, bind, Except.bind, Except.isOk, Except.toBool]
  by_cases h4 : collection_name = "hotels_collection"
  · subst h4
    obtain ⟨v1, hv1⟩ :=
      Option.isSome_iff_exists.mp (h "booked" (by decide))
    obtain ⟨v2, hv2⟩ :=
      Option.isSome_iff_exists.mp (h "name" (by decide))
    obtain ⟨v3, hv3⟩ :=
      Option.isSome_iff_exists.mp (h "location" (by decide))
    obtain ⟨v4, hv4⟩ :=
      Option.isSome_iff_exists.mp (h "price_tier" (by decide))
    obtain ⟨v5, hv5⟩ :=
      Option.isSome_iff_exists.mp (h "checkin_date" (by decide))
    obtain ⟨v6, hv6⟩ :=
      Option.isSome_iff_exists.mp (h "checkout_date" (by decide))
    simp [format_content, getKey, hv1, hv2, hv3, hv4, hv5, hv6,
      bind, Except.bind, Except.isOk, Except.toBool]
  by_cases h5 : collection_name = "faq_collection"
  · subst h5
    obtain ⟨v1, hv1⟩ :=
      Option.isSome_iff_exists.mp (h "page_content" (by decide))
    simp [format_content, getKey, hv1,
      bind, Except.bind, Except.isOk, Except.toBool]
  · simp [format_content, h1, h2, h3, h4, h5,
      Except.isOk, Except.toBool]

/-- Witness for C4 (amended): a full car-rental record, and separately
exercised by applying the theorem to it. -/
theorem format_content_total_amended_witness :
    (∀ k ∈ requiredKeys "car_rentals_collection",
      (dlookup [("booked", Value.bool true), ("name", Value.str "n"),
        ("location", Value.str "l"), ("price_tier", Value.str "p"),
        ("start_date", Value.str "s"), ("end_date", Value.str "e")]
        k).isSome) ∧
    ∃ s, format_content
      [("booked", Value.bool true), ("name", Value.str "n"),
       ("location", Value.str "l"), ("price_tier", Value.str "p"),
       ("start_date", Value.str "s"), ("end_date", Value.str "e")]
      "car_rentals_collection" = Except.ok s :=
  ⟨by decide,
   format_content_total_amended
     [("booked", Value.bool true), ("name", Value.str "n"),
      ("location", Value.str "l"), ("price_tier", Value.str "p"),
      ("start_date", Value.str "s"), ("end_date", Value.str "e")]
     "car_rentals_collection" (by decide)⟩

/-! ## Claim C6: search results -/

theorem mem_insertDesc (key : PointStruct → ℚ) (p x : PointStruct) :
    ∀ l : List PointStruct, x ∈ insertDesc key p l ↔ x = p ∨ x ∈ l
  | [] => by simp [insertDesc]
  | q :: rest => by
      by_cases hq : key q < key p
      · simp [insertDesc, hq]
      · simp only [insertDesc, if_neg hq, List.mem_cons,
          mem_insertDesc key p x rest]
        tauto

theorem pairwise_insertDesc (key : PointStruct → ℚ) (p : PointStruct) :
    ∀ l : List PointStruct,
      l.Pairwise (fun a b => key b ≤ key a) →
      (insertDesc key p l).Pairwise (fun a b => key b ≤ key a)
  | [], _ => by simp [insertDesc]
  | q :: rest, h => by
      rcases List.pairwise_cons.mp h with ⟨hq, hrest⟩
      by_cases hlt : key q < key p
      · simp only [insertDesc, if_pos hlt]
        refine List.pairwise_cons.mpr ⟨?_, h⟩
        intro x hx
        rcases List.mem_cons.mp hx with rfl | hx'
        · exact le_of_lt hlt
        · exact le_trans (hq x hx') (le_of_lt hlt)
      · simp only [insertDesc, if_neg hlt]
        refine List.pairwise_cons.mpr
          ⟨?_, pairwise_insertDesc key p rest hrest⟩
        intro x hx
        rcases (mem_insertDesc key p x rest).mp hx with rfl | hx'
        · exact le_of_not_lt hlt
        · exact hq x hx'

theorem pairwise_sortDesc (key : PointStruct → ℚ) :
    ∀ l : List PointStruct,
      (sortDesc key l).Pairwise (fun a b => key b ≤ key a)
  | [] => by simp [sortDesc]
  | x :: rest =>
      pairwise_insertDesc key x (sortDesc key rest)
        (pairwise_sortDesc key rest)

/-- Claim **C6.** For every query, limit, and state of an existing collection,
`search` succeeds and returns at most `limit` results ordered from best
match to worst (descending similarity score); each result carries its
payload when `with_payload` is set; and on an empty collection the
result is the empty sequence rather than an error. -/
theorem search_spec (score : List ℚ → List ℚ → ℚ)
    (encode : String → List ℚ) (collection_name query : String)
    (limit : Nat) (with_payload : Bool) (w : World) (c : Collection)
    (hc : getCollection w.store collection_name = some c) :
    ∃ rs,
      (search score encode collection_name query limit with_payload
        w).1 = Except.ok rs ∧
      rs.length ≤ limit ∧
      rs.Pairwise (fun a b => b.score ≤ a.score) ∧
      (with_payload = true → ∀ r ∈ rs, r.payload.isSome) ∧
      (c.points = [] → rs = []) := by
  have hres :
      (search score encode collection_name query limit with_payload
        w).1 =
      Except.ok
        (((sortDesc (fun p => score (encode query) p.vector)
            c.points).take limit).map
          (fun p => ⟨score (encode query) p.vector,
            if with_payload then some p.payload else Option.none⟩)) := by
    simp [search, clientSearch, hc]
  refine ⟨_, hres, ?_, ?_, ?_, ?_⟩
  · simp only [List.length_map, List.length_take]
    omega
  · refine (List.pairwise_map).mpr ?_
    refine List.Pairwise.sublist (List.take_sublist _ _) ?_
    exact pairwise_sortDesc _ c.points
  · intro hwp r hr
    rcases List.mem_map.mp hr with ⟨p, _, hp⟩
    rw [← hp]
    simp [hwp]
  · intro hpts
    simp [hpts, sortDesc]

/-- Witness for C6: a two-point collection searched with limit 3, and
head-of-vector scoring. -/
theorem search_spec_witness :
    getCollection
        ([("c", ⟨⟨384, Distance.cosine⟩,
          [⟨"i1", [1], [("a", Value.int 1)]⟩,
           ⟨"i2", [2], [("b", Value.int 2)]⟩]⟩)] : QdrantState) "c" =
      some ⟨⟨384, Distance.cosine⟩,
        [⟨"i1", [1], [("a", Value.int 1)]⟩,
         ⟨"i2", [2], [("b", Value.int 2)]⟩]⟩ ∧
    ∃ rs,
      (search (fun _ v => v.headI) (fun _ => [1]) "c" "query" 3 true
        ⟨[("c", ⟨⟨384, Distance.cosine⟩,
          [⟨"i1", [1], [("a", Value.int 1)]⟩,
           ⟨"i2", [2], [("b", Value.int 2)]⟩]⟩)], 0, []⟩).1 =
        Except.ok rs ∧
      rs.length ≤ 3 ∧
      rs.Pairwise (fun a b => b.score ≤ a.score) ∧
      (true = true → ∀ r ∈ rs, r.payload.isSome) ∧
      (([⟨"i1", [1], [("a", Value.int 1)]⟩,
         ⟨"i2", [2], [("b", Value.int 2)]⟩] :
          List PointStruct) = [] → rs = []) :=
  ⟨rfl,
   search_spec (fun _ v => v.headI) (fun _ => [1]) "c" "query" 3 true
     ⟨[("c", ⟨⟨384, Distance.cosine⟩,
       [⟨"i1", [1], [("a", Value.int 1)]⟩,
        ⟨"i2", [2], [("b", Value.int 2)]⟩]⟩)], 0, []⟩
     ⟨⟨384, Distance.cosine⟩,
      [⟨"i1", [1], [("a", Value.int 1)]⟩,
       ⟨"i2", [2], [("b", Value.int 2)]⟩]⟩ rfl⟩

/-! ## Batch-run lemmas (shared by C1, C3, C5) -/

theorem processBatch_eq (embed : String → Except String (List ℚ))
    (idGen : Nat → String) :
    ∀ (batch : List (String × Record)) (w : World),
    processBatch embed idGen batch w =
      (mkPointsE embed idGen batch w.nextId,
       ⟨w.store, w.nextId + succCount embed batch,
        w.log ++ errLogs embed batch⟩)
  | [], w => by
      simp [processBatch, mkPointsE, succCount, errLogs]
  | (c, m) :: rest, w => by
      cases hc : embed c with
      | ok v =>
          have ih := processBatch_eq embed idGen rest
            { w with nextId := w.nextId + 1 }
          simp only [processBatch, process_chunk, hc, bind, Except.bind,
            ih]
          simp [mkPointsE, hc, succCount, errLogs, List.filter_cons,
            Except.isOk, Except.toBool, World.mk.injEq]
          omega
      | error e =>
          have ih := processBatch_eq embed idGen rest
            { w with log := w.log ++
              [LogEntry.error ("Error processing chunk: " ++ e)] }
          simp only [processBatch, process_chunk, hc, bind, Except.bind,
            ih]
          simp [mkPointsE, hc, succCount, errLogs, List.filter_cons,
            Except.isOk, Except.toBool, World.mk.injEq]

theorem length_mkPointsE (embed : String → Except String (List ℚ))
    (idGen : Nat → String) :
    ∀ (l : List (String × Record)) (n : Nat),
    (mkPointsE embed idGen l n).length = succCount embed l
  | [], _ => rfl
  | (c, m) :: rest, n => by
      cases hc : embed c with
      | ok v =>
          simp [mkPointsE, hc, succCount, List.filter_cons, Except.isOk, Except.toBool,
            length_mkPointsE embed idGen rest]
      | error e =>
          simp [mkPointsE, hc, succCount, List.filter_cons, Except.isOk, Except.toBool,
            length_mkPointsE embed idGen rest]

theorem pointIds_mkPointsE (embed : String → Except String (List ℚ))
    (idGen : Nat → String) :
    ∀ (l : List (String × Record)) (n : Nat),
    pointIds (mkPointsE embed idGen l n) =
      (List.range' n (succCount embed l)).map idGen
  | [], _ => rfl
  | (c, m) :: rest, n => by
      have ih := pointIds_mkPointsE embed idGen rest
      cases hc : embed c with
      | ok v =>
          have hs : succCount embed ((c, m) :: rest) =
              succCount embed rest + 1 := by
            simp [succCount, List.filter_cons, hc, Except.isOk,
              Except.toBool]
          rw [hs, List.range'_succ]
          simp only [mkPointsE, hc, pointIds, List.map_cons]
          exact congrArg (List.cons (idGen n))
            (by simpa [pointIds] using ih (n + 1))
      | error e =>
          have hs : succCount embed ((c, m) :: rest) =
              succCount embed rest := by
            simp [succCount, List.filter_cons, hc, Except.isOk,
              Except.toBool]
          rw [hs]
          simp only [mkPointsE, hc]
          exact ih n

theorem succCount_append (embed : String → Except String (List ℚ))
    (a b : List (String × Record)) :
    succCount embed (a ++ b) =
      succCount embed a + succCount embed b := by
  simp [succCount, List.filter_append]

theorem errLogs_append (embed : String → Except String (List ℚ)) :
    ∀ (a b : List (String × Record)),
    errLogs embed (a ++ b) = errLogs embed a ++ errLogs embed b
  | [], b => rfl
  | (c, m) :: rest, b => by
      cases hc : embed c with
      | ok v => simp [errLogs, hc, errLogs_append embed rest b]
      | error e => simp [errLogs, hc, errLogs_append embed rest b]

theorem mkPointsE_append (embed : String → Except String (List ℚ))
    (idGen : Nat → String) :
    ∀ (a b : List (String × Record)) (n : Nat),
    mkPointsE embed idGen (a ++ b) n =
      mkPointsE embed idGen a n ++
        mkPointsE embed idGen b (n + succCount embed a)
  | [], b, n => by simp [mkPointsE, succCount]
  | (c, m) :: rest, b, n => by
      have ih := mkPointsE_append embed idGen rest b
      cases hc : embed c with
      | ok v =>
          have harith :
              n + 1 + succCount embed rest =
                n + succCount embed ((c, m) :: rest) := by
            simp [succCount, List.filter_cons, hc, Except.isOk,
              Except.toBool]
            omega
          have ih1 := ih (n + 1)
          rw [harith] at ih1
          simp only [List.cons_append, mkPointsE, hc]
          exact congrArg _ ih1
      | error e =>
          have harith :
              n + succCount embed rest =
                n + succCount embed ((c, m) :: rest) := by
            simp [succCount, List.filter_cons, hc, Except.isOk,
              Except.toBool]
          have ih1 := ih n
          rw [harith] at ih1
          simp only [List.cons_append, mkPointsE, hc]
          exact ih1

theorem filter_isErrEntry_errLogs
    (embed : String → Except String (List ℚ)) :
    ∀ (l : List (String × Record)),
    (errLogs embed l).filter isErrEntry = errLogs embed l
  | [] => rfl
  | (c, m) :: rest => by
      cases hc : embed c with
      | ok v => simp [errLogs, hc, filter_isErrEntry_errLogs embed rest]
      | error e =>
          simp [errLogs, hc, isErrEntry, List.filter_cons,
            filter_isErrEntry_errLogs embed rest]

theorem errLogs_length (embed : String → Except String (List ℚ)) :
    ∀ (l : List (String × Record)),
    (errLogs embed l).length + succCount embed l = l.length
  | [] => rfl
  | (c, m) :: rest => by
      have ih := errLogs_length embed rest
      cases hc : embed c with
      | ok v =>
          simp [errLogs, hc, succCount, List.filter_cons, Except.isOk, Except.toBool]
            at ih ⊢
          omega
      | error e =>
          simp [errLogs, hc, succCount, List.filter_cons, Except.isOk, Except.toBool]
            at ih ⊢
          omega

theorem upsertOne_fresh (pts : List PointStruct) (p : PointStruct)
    (h : ¬ p.id ∈ pointIds pts) : upsertOne pts p = pts ++ [p] := by
  have hany : (pts.any (fun q => q.id = p.id)) = false := by
    apply List.any_eq_false.mpr
    intro q hq
    simp only [decide_eq_true_eq]
    intro hqe
    exact h (List.mem_map.mpr ⟨q, hq, hqe⟩)
  simp [upsertOne, hany]

theorem upsertMany_fresh :
    ∀ (ps pts : List PointStruct),
    (∀ p ∈ ps, ¬ p.id ∈ pointIds pts) →
    (pointIds ps).Nodup →
    upsertMany pts ps = pts ++ ps
  | [], pts, _, _ => by simp [upsertMany]
  | p :: rest, pts, hfresh, hnd => by
      have h1 : upsertOne pts p = pts ++ [p] :=
        upsertOne_fresh pts p (hfresh p (by simp))
      have hndc := hnd
      simp only [pointIds, List.map_cons, List.nodup_cons] at hndc
      have hfresh' : ∀ q ∈ rest, ¬ q.id ∈ pointIds (pts ++ [p]) := by
        intro q hq
        simp only [pointIds, List.map_append, List.map_cons,
          List.map_nil, List.mem_append, List.mem_singleton]
        intro hmem
        rcases hmem with hin | hep
        · exact hfresh q (by simp [hq]) hin
        · exact hndc.1 (hep ▸ List.mem_map.mpr ⟨q, hq, rfl⟩)
      have h2 : upsertMany (pts ++ [p]) rest = (pts ++ [p]) ++ rest :=
        upsertMany_fresh rest (pts ++ [p]) hfresh' hndc.2
      calc upsertMany pts (p :: rest)
          = upsertMany (upsertOne pts p) rest := rfl
        _ = (pts ++ [p]) ++ rest := by rw [h1, h2]
        _ = pts ++ (p :: rest) := by simp

theorem getCollection_upsert_self (name : String)
    (ps : List PointStruct) :
    ∀ (st : QdrantState) (c : Collection),
    getCollection st name = some c →
    getCollection
      (st.map (fun e =>
        if e.1 = name then (e.1, ⟨e.2.cfg, upsertMany e.2.points ps⟩)
        else e)) name = some ⟨c.cfg, upsertMany c.points ps⟩
  | [], c, hc => by simp [getCollection, List.find?] at hc
  | e :: rest, c, hc => by
      by_cases he : e.1 = name
      · have hce : e.2 = c := by
          simpa [getCollection, List.find?, he] using hc
        simp [getCollection, List.find?, he, ← hce]
      · have hc' : getCollection rest name = some c := by
          simpa [getCollection, List.find?, he] using hc
        simpa [getCollection, List.find?, he]
          using getCollection_upsert_self name ps rest c hc'

theorem getCollection_upsert_other (name : String)
    (ps : List PointStruct) (n : String) (hn : ¬ n = name) :
    ∀ (st : QdrantState),
    getCollection
      (st.map (fun e =>
        if e.1 = name then (e.1, ⟨e.2.cfg, upsertMany e.2.points ps⟩)
        else e)) n = getCollection st n
  | [] => rfl
  | e :: rest => by
      have hn' : ¬ name = n := fun hh => hn hh.symm
      by_cases he : e.1 = name
      · simpa [getCollection, List.find?, he, hn', hn]
          using getCollection_upsert_other name ps n hn rest
      · by_cases hen : e.1 = n
        · simp [getCollection, List.find?, he, hen, hn, hn']
        · simpa [getCollection, List.find?, he, hen, hn, hn']
          using getCollection_upsert_other name ps n hn rest

/-- Characterization of a successful `upsert` on an existing
collection. -/
theorem upsert_ok (st : QdrantState) (name : String) (c : Collection)
    (ps : List PointStruct) (hc : getCollection st name = some c) :
    ∃ st', upsert st name ps = Except.ok st' ∧
      getCollection st' name = some ⟨c.cfg, upsertMany c.points ps⟩ ∧
      ∀ n, ¬ n = name → getCollection st' n = getCollection st n := by
  have hex : collection_exists st name = true := by
    rw [collection_exists_eq_isSome, hc]; rfl
  refine ⟨st.map (fun e =>
      if e.1 = name then (e.1, ⟨e.2.cfg, upsertMany e.2.points ps⟩)
      else e), ?_, ?_, ?_⟩
  · simp [upsert, hex]
  · exact getCollection_upsert_self name ps st c hc
  · intro n hn
    exact getCollection_upsert_other name ps n hn st

theorem flatten_chunksOf {α : Type} (n : Nat) (hn : ¬ n = 0) :
    ∀ (l : List α), (chunksOf n l).flatten = l
  | [] => by simp [chunksOf]
  | x :: xs => by
      rw [chunksOf]
      simp only [hn, dite_false]
      rw [List.flatten_cons,
        flatten_chunksOf n hn ((x :: xs).drop n)]
      exact List.take_append_drop n (x :: xs)
termination_by l => l.length
decreasing_by
  simp only [List.length_drop, List.length_cons]
  omega

/-- The master run lemma: `runBatches` over any batch list, with any
per-chunk embedding outcomes, never fails; it advances the uuid stream
by the number of successful chunks, adds exactly the points of the
successful chunks to the named collection, leaves every other
collection untouched, and appends one error log entry per failed
chunk (and nothing else error-levelled). -/
theorem runBatches_eq (embed : String → Except String (List ℚ))
    (idGen : Nat → String) (coll : String)
    (hinj : Function.Injective idGen) :
    ∀ (B : List (List (String × Record))) (w : World) (total : Nat)
      (cfg : VectorParams) (P : List PointStruct),
    getCollection w.store coll = some ⟨cfg, P⟩ →
    (∀ i : Nat, ¬ idGen (w.nextId + i) ∈ pointIds P) →
    ∃ st' L,
      runBatches embed idGen coll B w total =
        Except.ok (⟨st', w.nextId + succCount embed B.flatten,
          w.log ++ L⟩, total + succCount embed B.flatten) ∧
      getCollection st' coll =
        some ⟨cfg, P ++ mkPointsE embed idGen B.flatten w.nextId⟩ ∧
      (∀ n, ¬ n = coll →
        getCollection st' n = getCollection w.store n) ∧
      L.filter isErrEntry = errLogs embed B.flatten
  | [], w, total, cfg, P, hc, _ => by
      refine ⟨w.store, [], ?_, ?_, ?_, ?_⟩
      · simp [runBatches, succCount]
      · simpa [mkPointsE] using hc
      · intro n _
        rfl
      · rfl
  | b :: rest, w, total, cfg, P, hc, hfresh => by
      have hpb := processBatch_eq embed idGen b w
      have hlen := length_mkPointsE embed idGen b w.nextId
      have hids := pointIds_mkPointsE embed idGen b w.nextId
      by_cases hemp : mkPointsE embed idGen b w.nextId = []
      · -- the whole batch failed to embed: no upsert for this batch
        have hsb : succCount embed b = 0 := by
          rw [← hlen, hemp]
          rfl
        have ih := runBatches_eq embed idGen coll hinj rest
          ⟨w.store, w.nextId + succCount embed b,
           w.log ++ errLogs embed b⟩ total cfg P (by simpa using hc)
          (by
            intro i
            simpa [hsb] using hfresh i)
        obtain ⟨st', L', h1, h2, h3, h4⟩ := ih
        refine ⟨st', errLogs embed b ++ L', ?_, ?_, ?_, ?_⟩
        · rw [runBatches]
          simp only [hpb, hemp, List.isEmpty_nil, if_true]
          rw [h1]
          simp only [List.flatten_cons, succCount_append, hsb,
            List.append_assoc]
          norm_num
        · simpa [List.flatten_cons, mkPointsE_append, hemp, hsb]
            using h2
        · intro n hn
          simpa using h3 n hn
        · simp only [List.filter_append, filter_isErrEntry_errLogs, h4,
            List.flatten_cons, errLogs_append]
      · -- the batch has surviving points: they are upserted
        have hfreshNP : ∀ p ∈ mkPointsE embed idGen b w.nextId,
            ¬ p.id ∈ pointIds P := by
          intro p hp hPin
          have hidin : p.id ∈ pointIds (mkPointsE embed idGen b
              w.nextId) := List.mem_map.mpr ⟨p, hp, rfl⟩
          rw [hids] at hidin
          obtain ⟨k, hk, hkid⟩ := List.mem_map.mp hidin
          obtain ⟨hk1, hk2⟩ := List.mem_range'_1.mp hk
          have hkk : w.nextId + (k - w.nextId) = k := by omega
          exact hfresh (k - w.nextId) (by rw [hkk, hkid]; exact hPin)
        have hndNP : (pointIds (mkPointsE embed idGen b
            w.nextId)).Nodup := by
          rw [hids]
          exact (List.nodup_range' ..).map hinj
        have hup := upsert_ok w.store coll ⟨cfg, P⟩
          (mkPointsE embed idGen b w.nextId) hc
        obtain ⟨st2, hup1, hup2, hup3⟩ := hup
        have hmany : upsertMany P (mkPointsE embed idGen b w.nextId) =
            P ++ mkPointsE embed idGen b w.nextId :=
          upsertMany_fresh _ P hfreshNP hndNP
        rw [hmany] at hup2
        have hfresh2 : ∀ i : Nat,
            ¬ idGen (w.nextId + succCount embed b + i) ∈
              pointIds (P ++ mkPointsE embed idGen b w.nextId) := by
          intro i hin
          rw [pointIds, List.map_append] at hin
          rcases List.mem_append.mp hin with hin1 | hin2
          · have harith : w.nextId + succCount embed b + i =
                w.nextId + (succCount embed b + i) := by omega
            rw [harith] at hin1
            exact hfresh (succCount embed b + i) hin1
          · rw [← pointIds, hids] at hin2
            obtain ⟨k, hk, hkid⟩ := List.mem_map.mp hin2
            obtain ⟨hk1, hk2⟩ := List.mem_range'_1.mp hk
            have := hinj hkid
            omega
        have ih := runBatches_eq embed idGen coll hinj rest
          ⟨st2, w.nextId + succCount embed b,
           (w.log ++ errLogs embed b) ++
             [LogEntry.info ("Indexed " ++
               toString (mkPointsE embed idGen b w.nextId).length ++
               " documents into " ++ coll)]⟩
          (total + (mkPointsE embed idGen b w.nextId).length)
          cfg (P ++ mkPointsE embed idGen b w.nextId)
          (by simpa using hup2) hfresh2
        obtain ⟨st', L', h1, h2, h3, h4⟩ := ih
        refine ⟨st',
          errLogs embed b ++
            (LogEntry.info ("Indexed " ++
              toString (mkPointsE embed idGen b w.nextId).length ++
              " documents into " ++ coll) :: L'), ?_, ?_, ?_, ?_⟩
        · rw [runBatches]
          simp only [hpb, List.isEmpty_eq_true, hemp, if_false]
          simp only [bind, Except.bind, hup1]
          rw [h1]
          simp only [List.flatten_cons, succCount_append, hlen,
            List.append_assoc, List.cons_append, List.nil_append]
          have harith : w.nextId + succCount embed b +
              succCount embed rest.flatten =
              w.nextId + (succCount embed b +
                succCount embed rest.flatten) := by omega
          have harith2 : total + succCount embed b +
              succCount embed rest.flatten =
              total + (succCount embed b +
                succCount embed rest.flatten) := by omega
          rw [harith, harith2]
        · rw [h2]
          simp only [List.flatten_cons]
          rw [mkPointsE_append embed idGen b rest.flatten w.nextId]
          simp [List.append_assoc]
        · intro n hn
          rw [h3 n hn]
          exact hup3 n hn
        · simp [List.filter_append, filter_isErrEntry_errLogs,
            List.filter_cons, isErrEntry, h4, List.flatten_cons,
            errLogs_append]

theorem buildPaired_length (split : String → List String)
    (collection_name : String) :
    ∀ (data : List Record) (paired : List (String × Record)),
    buildPaired split collection_name data = Except.ok paired →
    paired.length = (data.map (chunkCount split collection_name)).sum
  | [], paired, h => by
      simp only [buildPaired, Except.ok.injEq] at h
      simp [← h]
  | item :: rest, paired, h => by
      cases hf : format_content item collection_name with
      | error e => simp [buildPaired, hf, bind, Except.bind] at h
      | ok t =>
          cases hr : buildPaired split collection_name rest with
          | error e =>
              simp [buildPaired, hf, hr, bind, Except.bind] at h
          | ok tail =>
              have ih := buildPaired_length split collection_name rest
                tail hr
              simp only [buildPaired, hf, hr, bind, Except.bind,
                Except.ok.injEq] at h
              rw [← h]
              simp [chunkCount, hf, ih]

theorem buildPaired_mem (split : String → List String)
    (collection_name : String) :
    ∀ (data : List Record) (paired : List (String × Record)),
    buildPaired split collection_name data = Except.ok paired →
    ∀ c m, (c, m) ∈ paired →
      m ∈ data ∧ ¬ c = "" ∧
      ∃ t, format_content m collection_name = Except.ok t ∧ c ∈ split t
  | [], paired, h => by
      simp only [buildPaired, Except.ok.injEq] at h
      intro c m hm
      rw [← h] at hm
      simp at hm
  | item :: rest, paired, h => by
      cases hf : format_content item collection_name with
      | error e => simp [buildPaired, hf, bind, Except.bind] at h
      | ok t =>
          cases hr : buildPaired split collection_name rest with
          | error e =>
              simp [buildPaired, hf, hr, bind, Except.bind] at h
          | ok tail =>
              have ih := buildPaired_mem split collection_name rest
                tail hr
              simp only [buildPaired, hf, hr, bind, Except.bind,
                Except.ok.injEq] at h
              intro c m hm
              rw [← h] at hm
              rcases List.mem_append.mp hm with h1 | h2
              · rcases List.mem_map.mp h1 with ⟨c', hcf, heq⟩
                obtain ⟨rfl, rfl⟩ := Prod.mk.injEq .. |>.mp heq
                have hfm := List.mem_filter.mp hcf
                refine ⟨by simp, by simpa using hfm.2, t, hf, hfm.1⟩
              · have hrec := ih c m h2
                exact ⟨List.mem_cons_of_mem _ hrec.1, hrec.2⟩

theorem mem_mkPointsE (embed : String → Except String (List ℚ))
    (idGen : Nat → String) :
    ∀ (l : List (String × Record)) (n : Nat) (p : PointStruct),
    p ∈ mkPointsE embed idGen l n →
    ∃ c m, (c, m) ∈ l ∧ p.payload = ("content", Value.str c) :: m
  | [], n, p => by simp [mkPointsE]
  | (c0, m0) :: rest, n, p => by
      cases hc : embed c0 with
      | ok v =>
          simp only [mkPointsE, hc, List.mem_cons]
          intro hp
          rcases hp with rfl | hp'
          · exact ⟨c0, m0, by simp, rfl⟩
          · obtain ⟨c, m, hcm, hpay⟩ :=
              mem_mkPointsE embed idGen rest (n + 1) p hp'
            exact ⟨c, m, by simp [hcm], hpay⟩
      | error e =>
          intro hp
          obtain ⟨c, m, hcm, hpay⟩ :=
            mem_mkPointsE embed idGen rest n p
              (by simpa [mkPointsE, hc] using hp)
          exact ⟨c, m, by simp [hcm], hpay⟩

theorem succCount_allOk (embedF : String → List ℚ) :
    ∀ (l : List (String × Record)),
    succCount (fun s => Except.ok (embedF s)) l = l.length
  | [] => rfl
  | (c, m) :: rest => by
      have ih := succCount_allOk embedF rest
      simp only [succCount] at ih ⊢
      simp [List.filter_cons, Except.isOk, Except.toBool, ih]

/-- Characterization of a full `index_regular_docs` run on the built
`(chunk, record)` pairs: the run returns normally whatever the
per-chunk embedding outcomes; exactly the successfully embedded chunks
join the collection as points, other collections are untouched, the log
gains one error entry per failed chunk (and no other error entries),
and the uuid position advances by the success count. -/
theorem index_regular_docs_run
    (embed : String → Except String (List ℚ)) (idGen : Nat → String)
    (split : String → List String) (tbl : TableData)
    (table_name collection_name : String) (w : World)
    (cfg : VectorParams) (P : List PointStruct)
    (paired : List (String × Record))
    (hinj : Function.Injective idGen)
    (hpaired : buildPaired split collection_name tbl.data =
      Except.ok paired)
    (hc : getCollection w.store collection_name = some ⟨cfg, P⟩)
    (hfresh : ∀ i : Nat, ¬ idGen (w.nextId + i) ∈ pointIds P) :
    ∃ w',
      index_regular_docs embed idGen split tbl table_name
        collection_name w = Except.ok w' ∧
      getCollection w'.store collection_name =
        some ⟨cfg, P ++ mkPointsE embed idGen paired w.nextId⟩ ∧
      (∀ n, ¬ n = collection_name →
        getCollection w'.store n = getCollection w.store n) ∧
      w'.log.filter isErrEntry =
        w.log.filter isErrEntry ++ errLogs embed paired ∧
      w'.nextId = w.nextId + succCount embed paired := by
  by_cases hrows : tbl.rows.isEmpty
  · have hdata : tbl.data = [] := by
      simp only [TableData.data]
      rw [List.isEmpty_iff] at hrows
      simp [hrows]
    have hpnil : paired = [] := by
      rw [hdata] at hpaired
      simpa [buildPaired] using hpaired.symm
    subst hpnil
    refine ⟨{ w with log := w.log ++
        [LogEntry.warning ("No data found in table " ++ table_name)] },
      ?_, ?_, ?_, ?_, ?_⟩
    · simp [index_regular_docs, hrows]
    · simpa [mkPointsE] using hc
    · intro n _
      rfl
    · simp [List.filter_append, isErrEntry, errLogs]
    · simp [succCount]
  · by_cases hpe : paired = []
    · subst hpe
      refine ⟨{ w with log := w.log ++
          [LogEntry.warning ("No valid chunks generated for " ++
            collection_name)] }, ?_, ?_, ?_, ?_, ?_⟩
      · simp [index_regular_docs, hrows, hpaired, bind, Except.bind]
      · simpa [mkPointsE] using hc
      · intro n _
        rfl
      · simp [List.filter_append, isErrEntry, errLogs]
      · simp [succCount]
    · obtain ⟨st', L, h1, h2, h3, h4⟩ :=
        runBatches_eq embed idGen collection_name hinj
          (chunksOf 100 paired) w 0 cfg P hc hfresh
      have hflat : (chunksOf 100 paired).flatten = paired :=
        flatten_chunksOf 100 (by norm_num) paired
      rw [hflat] at h1 h2 h4
      refine ⟨⟨st', w.nextId + succCount embed paired,
        (w.log ++ L) ++
          [LogEntry.info
            ("Finished indexing. Total documents indexed into " ++
              collection_name ++ ": " ++
              toString (0 + succCount embed paired))]⟩,
        ?_, ?_, ?_, ?_, ?_⟩
      · simp only [index_regular_docs, hrows, if_false, hpaired, bind,
          Except.bind, List.isEmpty_eq_true, hpe]
        rw [h1]
        simp
      · exact h2
      · intro n hn
        exact h3 n hn
      · simp [List.filter_append, filter_isErrEntry_errLogs, h4,
          isErrEntry]
      · rfl

/-! ## Claim C1: per-chunk failure isolation -/

/-- Counterexample to C1 as stated: in the remote-document entry mode
(`index_faq_docs`) a single section's embedding failure IS escalated to
a run-level failure — `asyncio.gather` without `return_exceptions`
re-raises it — so the run errors and upserts nothing, even though the
other two sections embed fine. -/
theorem index_faq_docs_single_failure_escalates :
    index_faq_docs
      (fun s => if s = "##B" then Except.error "boom" else
        Except.ok [1])
      idGenA "A\n##B\n##C" "faq_collection"
      ⟨[("faq_collection", ⟨⟨384, Distance.cosine⟩, []⟩)], 0, []⟩ =
      Except.error "boom" ∧
    ¬ ∃ w', index_faq_docs
      (fun s => if s = "##B" then Except.error "boom" else
        Except.ok [1])
      idGenA "A\n##B\n##C" "faq_collection"
      ⟨[("faq_collection", ⟨⟨384, Distance.cosine⟩, []⟩)], 0, []⟩ =
      Except.ok w' := by
  refine ⟨rfl, ?_⟩
  rintro ⟨w', hw⟩
  have h0 : (Except.error "boom" : Except String World) =
      Except.ok w' := hw
  exact Except.noConfusion h0

/-- Claim **C1 (amended).** In the bulk entry mode (`index_regular_docs`), a
chunk whose embedding fails is logged and excluded from its batch's
upsert while every other chunk is embedded and upserted, and no chunk
failure escalates to a batch- or run-level failure: the run returns
normally, the collection gains exactly one point per successfully
embedded chunk (so a 100-chunk batch with one failure upserts the
other 99), and the log gains exactly one error entry per failed chunk.
In the remote-document mode (`index_faq_docs`) the failure instead
aborts the run, so the claim holds only for the bulk mode. -/
theorem index_regular_docs_isolates_failures
    (embed : String → Except String (List ℚ)) (idGen : Nat → String)
    (split : String → List String) (tbl : TableData)
    (table_name collection_name : String) (w : World)
    (cfg : VectorParams) (P : List PointStruct)
    (paired : List (String × Record))
    (hinj : Function.Injective idGen)
    (hpaired : buildPaired split collection_name tbl.data =
      Except.ok paired)
    (hc : getCollection w.store collection_name = some ⟨cfg, P⟩)
    (hfresh : ∀ i : Nat, ¬ idGen (w.nextId + i) ∈ pointIds P) :
    ∃ w' pts,
      index_regular_docs embed idGen split tbl table_name
        collection_name w = Except.ok w' ∧
      getCollection w'.store collection_name = some ⟨cfg, P ++ pts⟩ ∧
      pts.length = succCount embed paired ∧
      (errLogs embed paired).length + succCount embed paired =
        paired.length ∧
      w'.log.filter isErrEntry =
        w.log.filter isErrEntry ++ errLogs embed paired := by
  obtain ⟨w', h1, h2, h3, h4, h5⟩ :=
    index_regular_docs_run embed idGen split tbl table_name
      collection_name w cfg P paired hinj hpaired hc hfresh
  exact ⟨w', mkPointsE embed idGen paired w.nextId, h1, h2,
    length_mkPointsE embed idGen paired w.nextId,
    errLogs_length embed paired, h4⟩

/-- Witness for C1 (amended): one record split into 100 chunks of which
exactly one ("bad") fails to embed; the other 99 are upserted and the
log gains exactly one error entry. -/
theorem index_regular_docs_isolates_failures_witness :
    (buildPaired (fun _ => List.replicate 99 "ok" ++ ["bad"]) "c"
        (⟨["a"], [[Value.int 1]]⟩ : TableData).data =
      Except.ok ((List.replicate 99 "ok" ++ ["bad"]).map
        (fun c => (c, [("a", Value.int 1)])))) ∧
    succCount
      (fun s => if s = "bad" then Except.error "boom" else
        Except.ok [1])
      ((List.replicate 99 "ok" ++ ["bad"]).map
        (fun c => (c, [("a", Value.int 1)]))) = 99 ∧
    (errLogs
      (fun s => if s = "bad" then Except.error "boom" else
        Except.ok [1])
      ((List.replicate 99 "ok" ++ ["bad"]).map
        (fun c => (c, [("a", Value.int 1)])))).length = 1 ∧
    ((List.replicate 99 "ok" ++ ["bad"]).map
      (fun c => (c, [("a", Value.int 1)]))).length = 100 ∧
    ∃ w' pts,
      index_regular_docs
        (fun s => if s = "bad" then Except.error "boom" else
          Except.ok [1])
        idGenA (fun _ => List.replicate 99 "ok" ++ ["bad"])
        ⟨["a"], [[Value.int 1]]⟩ "t" "c"
        ⟨[("c", ⟨⟨384, Distance.cosine⟩, []⟩)], 0, []⟩ =
        Except.ok w' ∧
      getCollection w'.store "c" =
        some ⟨⟨384, Distance.cosine⟩, [] ++ pts⟩ ∧
      pts.length = succCount
        (fun s => if s = "bad" then Except.error "boom" else
          Except.ok [1])
        ((List.replicate 99 "ok" ++ ["bad"]).map
          (fun c => (c, [("a", Value.int 1)]))) ∧
      (errLogs
        (fun s => if s = "bad" then Except.error "boom" else
          Except.ok [1])
        ((List.replicate 99 "ok" ++ ["bad"]).map
          (fun c => (c, [("a", Value.int 1)])))).length +
        succCount
          (fun s => if s = "bad" then Except.error "boom" else
            Except.ok [1])
          ((List.replicate 99 "ok" ++ ["bad"]).map
            (fun c => (c, [("a", Value.int 1)]))) =
        ((List.replicate 99 "ok" ++ ["bad"]).map
          (fun c => (c, [("a", Value.int 1)]))).length ∧
      w'.log.filter isErrEntry =
        (⟨[("c", ⟨⟨384, Distance.cosine⟩, []⟩)], 0, []⟩ :
          World).log.filter isErrEntry ++
          errLogs
            (fun s => if s = "bad" then Except.error "boom" else
              Except.ok [1])
            ((List.replicate 99 "ok" ++ ["bad"]).map
              (fun c => (c, [("a", Value.int 1)]))) :=
  ⟨rfl, by decide, by decide, by decide,
   index_regular_docs_isolates_failures
     (fun s => if s = "bad" then Except.error "boom" else
       Except.ok [1])
     idGenA (fun _ => List.replicate 99 "ok" ++ ["bad"])
     ⟨["a"], [[Value.int 1]]⟩ "t" "c"
     ⟨[("c", ⟨⟨384, Distance.cosine⟩, []⟩)], 0, []⟩
     ⟨384, Distance.cosine⟩ []
     ((List.replicate 99 "ok" ++ ["bad"]).map
       (fun c => (c, [("a", Value.int 1)])))
     idGenA_injective rfl rfl (by intro i; simp [pointIds])⟩

/-! ## Claim C3: point counts and payloads of a clean bulk run -/

/-- Claim **C3.** Running bulk indexing on a freshly created empty collection
with no embedding failures leaves the collection containing exactly
`Σ k_i` points, where `k_i` is record `i`'s count of non-empty chunks,
and every point's payload is its chunk text under `"content"` together
with the full original field map of the record it came from. -/
theorem index_regular_docs_counts_and_payloads
    (embedF : String → List ℚ) (idGen : Nat → String)
    (split : String → List String) (tbl : TableData)
    (table_name collection_name : String) (w : World)
    (cfg : VectorParams) (paired : List (String × Record))
    (hinj : Function.Injective idGen)
    (hpaired : buildPaired split collection_name tbl.data =
      Except.ok paired)
    (hc : getCollection w.store collection_name = some ⟨cfg, []⟩) :
    ∃ w' pts,
      index_regular_docs (fun s => Except.ok (embedF s)) idGen split
        tbl table_name collection_name w = Except.ok w' ∧
      getCollection w'.store collection_name = some ⟨cfg, pts⟩ ∧
      pts.length =
        (tbl.data.map (chunkCount split collection_name)).sum ∧
      ∀ p ∈ pts, ∃ c m, m ∈ tbl.data ∧
        p.payload = ("content", Value.str c) :: m ∧ ¬ c = "" ∧
        ∃ t, format_content m collection_name = Except.ok t ∧
          c ∈ split t := by
  obtain ⟨w', h1, h2, h3, h4, h5⟩ :=
    index_regular_docs_run (fun s => Except.ok (embedF s)) idGen split
      tbl table_name collection_name w cfg [] paired hinj hpaired hc
      (by intro i; simp [pointIds])
  refine ⟨w',
    mkPointsE (fun s => Except.ok (embedF s)) idGen paired w.nextId,
    h1, by simpa using h2, ?_, ?_⟩
  · rw [length_mkPointsE, succCount_allOk,
      buildPaired_length split collection_name tbl.data paired hpaired]
  · intro p hp
    obtain ⟨c, m, hcm, hpay⟩ :=
      mem_mkPointsE _ idGen paired w.nextId p hp
    obtain ⟨hm, hcne, t, hft, hcs⟩ :=
      buildPaired_mem split collection_name tbl.data paired hpaired
        c m hcm
    exact ⟨c, m, hm, hpay, hcne, t, hft, hcs⟩

/-- Witness for C3: a two-record table, each record yielding one chunk,
indexed into a fresh empty collection. -/
theorem index_regular_docs_counts_and_payloads_witness :
    (buildPaired (fun t => [t]) "c"
        (⟨["a"], [[Value.int 1], [Value.int 2]]⟩ : TableData).data =
      Except.ok [("\x7ba: 1\x7d", [("a", Value.int 1)]),
        ("\x7ba: 2\x7d", [("a", Value.int 2)])]) ∧
    ∃ w' pts,
      index_regular_docs (fun s => Except.ok [(1 : ℚ)]) idGenA
        (fun t => [t]) ⟨["a"], [[Value.int 1], [Value.int 2]]⟩
        "t" "c" ⟨[("c", ⟨⟨384, Distance.cosine⟩, []⟩)], 0, []⟩ =
        Except.ok w' ∧
      getCollection w'.store "c" =
        some ⟨⟨384, Distance.cosine⟩, pts⟩ ∧
      pts.length =
        ((⟨["a"], [[Value.int 1], [Value.int 2]]⟩ :
          TableData).data.map (chunkCount (fun t => [t]) "c")).sum ∧
      ∀ p ∈ pts, ∃ c m,
        m ∈ (⟨["a"], [[Value.int 1], [Value.int 2]]⟩ :
          TableData).data ∧
        p.payload = ("content", Value.str c) :: m ∧ ¬ c = "" ∧
        ∃ t, format_content m "c" = Except.ok t ∧ c ∈ [t] :=
  ⟨rfl,
   index_regular_docs_counts_and_payloads (fun _ => [(1 : ℚ)]) idGenA
     (fun t => [t]) ⟨["a"], [[Value.int 1], [Value.int 2]]⟩ "t" "c"
     ⟨[("c", ⟨⟨384, Distance.cosine⟩, []⟩)], 0, []⟩
     ⟨384, Distance.cosine⟩
     [("\x7ba: 1\x7d", [("a", Value.int 1)]),
      ("\x7ba: 2\x7d", [("a", Value.int 2)])]
     idGenA_injective rfl rfl⟩

/-! ## Claim C5: fresh ids, duplicated points on re-run -/

/-- Claim **C5.** Every point is created under a fresh identifier distinct
from all identifiers already in the collection (no deduplication by
content): running the same bulk indexing twice without recreating the
collection leaves twice the point count of a single run — the second
run appends new points whose ids are disjoint from the first run's,
overwriting nothing. -/
theorem index_regular_docs_rerun_doubles
    (embedF : String → List ℚ) (idGen : Nat → String)
    (split : String → List String) (tbl : TableData)
    (table_name collection_name : String) (w : World)
    (cfg : VectorParams) (paired : List (String × Record))
    (hinj : Function.Injective idGen)
    (hpaired : buildPaired split collection_name tbl.data =
      Except.ok paired)
    (hc : getCollection w.store collection_name = some ⟨cfg, []⟩) :
    ∃ w1 w2 pts1 pts2,
      index_regular_docs (fun s => Except.ok (embedF s)) idGen split
        tbl table_name collection_name w = Except.ok w1 ∧
      getCollection w1.store collection_name = some ⟨cfg, pts1⟩ ∧
      index_regular_docs (fun s => Except.ok (embedF s)) idGen split
        tbl table_name collection_name w1 = Except.ok w2 ∧
      getCollection w2.store collection_name = some ⟨cfg, pts2⟩ ∧
      pts2.length = 2 * pts1.length ∧
      ∃ r2, pts2 = pts1 ++ r2 ∧ r2.length = pts1.length ∧
        ∀ q ∈ r2, ¬ q.id ∈ pointIds pts1 := by
  obtain ⟨w1, h11, h12, h13, h14, h15⟩ :=
    index_regular_docs_run (fun s => Except.ok (embedF s)) idGen split
      tbl table_name collection_name w cfg [] paired hinj hpaired hc
      (by intro i; simp [pointIds])
  rw [List.nil_append] at h12
  have hids1 : pointIds (mkPointsE (fun s => Except.ok (embedF s))
      idGen paired w.nextId) =
      (List.range' w.nextId
        (succCount (fun s => Except.ok (embedF s)) paired)).map idGen :=
    pointIds_mkPointsE _ idGen paired w.nextId
  have hfresh1 : ∀ i : Nat, ¬ idGen (w1.nextId + i) ∈
      pointIds (mkPointsE (fun s => Except.ok (embedF s)) idGen paired
        w.nextId) := by
    intro i hin
    rw [hids1] at hin
    obtain ⟨k, hk, hkid⟩ := List.mem_map.mp hin
    obtain ⟨hk1, hk2⟩ := List.mem_range'_1.mp hk
    have hkk := hinj hkid
    rw [h15] at hkk
    omega
  obtain ⟨w2, h21, h22, h23, h24, h25⟩ :=
    index_regular_docs_run (fun s => Except.ok (embedF s)) idGen split
      tbl table_name collection_name w1 cfg
      (mkPointsE (fun s => Except.ok (embedF s)) idGen paired w.nextId)
      paired hinj hpaired h12 hfresh1
  refine ⟨w1, w2,
    mkPointsE (fun s => Except.ok (embedF s)) idGen paired w.nextId,
    mkPointsE (fun s => Except.ok (embedF s)) idGen paired w.nextId ++
      mkPointsE (fun s => Except.ok (embedF s)) idGen paired
        w1.nextId,
    h11, h12, h21, h22, ?_, ?_⟩
  · simp only [List.length_append, length_mkPointsE]
    omega
  · refine ⟨mkPointsE (fun s => Except.ok (embedF s)) idGen paired
      w1.nextId, rfl, ?_, ?_⟩
    · simp only [length_mkPointsE]
    · intro q hq hqin
      have hq2 : q.id ∈ pointIds (mkPointsE
          (fun s => Except.ok (embedF s)) idGen paired w1.nextId) :=
        List.mem_map.mpr ⟨q, hq, rfl⟩
      rw [pointIds_mkPointsE _ idGen paired w1.nextId] at hq2
      rw [hids1] at hqin
      obtain ⟨k1, hk1, hid1⟩ := List.mem_map.mp hqin
      obtain ⟨k2, hk2, hid2⟩ := List.mem_map.mp hq2
      obtain ⟨hk1a, hk1b⟩ := List.mem_range'_1.mp hk1
      obtain ⟨hk2a, hk2b⟩ := List.mem_range'_1.mp hk2
      have hkk := hinj (hid1.trans hid2.symm)
      rw [h15] at hk2a
      omega

/-- Witness for C5: a one-record, one-chunk table indexed twice into
the same collection without recreating it. -/
theorem index_regular_docs_rerun_doubles_witness :
    (buildPaired (fun t => [t]) "c"
        (⟨["a"], [[Value.int 1]]⟩ : TableData).data =
      Except.ok [("\x7ba: 1\x7d", [("a", Value.int 1)])]) ∧
    ∃ w1 w2 pts1 pts2,
      index_regular_docs (fun _ => Except.ok [(1 : ℚ)]) idGenA
        (fun t => [t]) ⟨["a"], [[Value.int 1]]⟩ "t" "c"
        ⟨[("c", ⟨⟨384, Distance.cosine⟩, []⟩)], 0, []⟩ =
        Except.ok w1 ∧
      getCollection w1.store "c" =
        some ⟨⟨384, Distance.cosine⟩, pts1⟩ ∧
      index_regular_docs (fun _ => Except.ok [(1 : ℚ)]) idGenA
        (fun t => [t]) ⟨["a"], [[Value.int 1]]⟩ "t" "c" w1 =
        Except.ok w2 ∧
      getCollection w2.store "c" =
        some ⟨⟨384, Distance.cosine⟩, pts2⟩ ∧
      pts2.length = 2 * pts1.length ∧
      ∃ r2, pts2 = pts1 ++ r2 ∧ r2.length = pts1.length ∧
        ∀ q ∈ r2, ¬ q.id ∈ pointIds pts1 :=
  ⟨rfl,
   index_regular_docs_rerun_doubles (fun _ => [(1 : ℚ)]) idGenA
     (fun t => [t]) ⟨["a"], [[Value.int 1]]⟩ "t" "c"
     ⟨[("c", ⟨⟨384, Distance.cosine⟩, []⟩)], 0, []⟩
     ⟨384, Distance.cosine⟩ [("\x7ba: 1\x7d", [("a", Value.int 1)])]
     idGenA_injective rfl rfl⟩

end VectorDB
